import Mathlib

/-!
Verification development for the pudl notebook repository.

The repository's visible source is two Jupyter notebooks:
  * `test/validate/notebooks/validate_plants_steam_ferc1.ipynb` — pulls the
    FERC Form 1 large steam plants table, derives four ratio columns by
    pointwise column division, and plots each field against declared bounds
    via the external `pudl.validate` library.
  * `notebooks/work-in-progress/VCERARE.ipynb` — loads the VCE RARE parquet
    dataset, filters it, estimates CSV export size, and draws charts.

The Bounds Validator (`check` / `render`) described by the specification
lives in the external `pudl.validate` library, whose code is not part of
this repository's visible source; it is modelled here from the
specification's words.  The notebook cells themselves (ratio derivation,
CSV size estimator, chart cells and their name environment) are embedded
directly from the notebook source.
-/

deriving instance DecidableEq for Except

namespace BoundsValidator

/-- Modelled from the spec: a row of the Observation Table is "a mapping
from field name to a numeric value (floating point; missing/null permitted
per field)".  Numeric values are modelled as rationals; a field mapped to
`none` (or absent from the association list) is null for that row. -/
abbrev Row : Type := List (String × Option ℚ)

/-- Modelled from the spec: the Observation Table is a "non-empty ordered
sequence of rows"; `fields` is the set of field names the table carries
(the schema), used to decide whether a bound spec names an absent field. -/
structure Table where
  fields : List String
  rows : List Row
deriving DecidableEq

/-- Modelled from the spec: the central tendency is "mean or median,
declared per spec" — a tagged variant in the bound specification. -/
inductive CenterMode where
  | mean
  | median
deriving DecidableEq

/-- Modelled from the spec: the Bound Specification, "a declarative
record: \x7bfield name, lower quantile or absolute lower bound, upper
quantile or absolute upper bound, expected central tendency range\x7d".
`lowQ` / `hiQ` are the quantile levels in [0,1] at which the tails are
observed (level 0 / 1 observe the minimum / maximum, which is the
absolute-bound reading), and `lowBound` / `hiBound` are the declared
numeric bounds the observed tails are compared against. -/
structure BoundSpec where
  field : String
  lowQ : ℚ
  hiQ : ℚ
  lowBound : ℚ
  hiBound : ℚ
  centerMode : CenterMode
  centerLow : ℚ
  centerHigh : ℚ
deriving DecidableEq

/-- Modelled from the spec: the Validation Result, "a structured outcome
recording, per field: observed-tail-low, observed-tail-high,
observed-central, pass/fail flag for tails, pass/fail flag for center, and
the indices/identities of outlier rows". -/
structure ValidationResult where
  observedTailLow : ℚ
  observedTailHigh : ℚ
  observedCentral : ℚ
  tailsPass : Bool
  centerPass : Bool
  outlierRows : List ℕ
deriving DecidableEq

/-- Modelled from the spec: the three structural error kinds of `check`. -/
inductive CheckError where
  | missingFieldError
  | emptyTableError
  | invalidBoundsError
deriving DecidableEq

/-- The value of field `f` in row `r`: `none` when the row has no entry
for `f` or the entry is null. -/
def rowVal (f : String) (r : Row) : Option ℚ :=
  Option.join (List.lookup f r)

/-- The column of field `f`: one optional value per row, in row order. -/
def column (t : Table) (f : String) : List (Option ℚ) :=
  t.rows.map (rowVal f)

/-- Whether the table carries a field named `f`. -/
def hasField (t : Table) (f : String) : Bool :=
  t.fields.contains f

/-- The non-null values of a column, in row order. -/
def nonNull (col : List (Option ℚ)) : List ℚ :=
  col.filterMap id

/-- Ascending sort of the non-null values, used by the quantile and the
median.  A single consistent method is used for every field and run, as
the spec requires. -/
def sortAsc (vals : List ℚ) : List ℚ :=
  List.insertionSort (· ≤ ·) vals

/-- The product `q * m` of a rational and a natural number, written out on
numerator and denominator (`ratMulNat_eq` proves it is that product). -/
def ratMulNat (q : ℚ) (m : ℕ) : ℚ :=
  mkRat (q.num * m) q.den

/-- Modelled from the spec: index of the empirical quantile at level `q`
over `m + 1` sorted values.  The ceiling ("higher") order statistic is
used, documented as the single interpolation method of this validator:
the observed quantile is always an actual data value, never an
interpolation between two values. -/
def quantIdx (q : ℚ) (m : ℕ) : ℕ :=
  min (Int.toNat ⌈ratMulNat q m⌉) m

/-- Modelled from the spec: "computes the empirical lower/upper quantile
... over the non-null values of the named field". -/
def quantileOf (q : ℚ) (vals : List ℚ) : ℚ :=
  (sortAsc vals).getD (quantIdx q (vals.length - 1)) 0

/-- Rational addition written out on numerators and denominators
(`qadd_eq` proves it is addition). -/
def qadd (a b : ℚ) : ℚ :=
  mkRat (a.num * b.den + b.num * a.den) (a.den * b.den)

/-- Sum of a list of rationals (`qsum_eq` proves it is `List.sum`). -/
def qsum (l : List ℚ) : ℚ :=
  l.foldr qadd 0

/-- Division of a rational by a natural number, written out on numerator
and denominator (`qdivNat_eq` proves it is that quotient). -/
def qdivNat (a : ℚ) (n : ℕ) : ℚ :=
  mkRat a.num (a.den * n)

/-- Arithmetic mean of a list of rationals: its sum divided by its length
(`meanOf_eq`). -/
def meanOf (vals : List ℚ) : ℚ :=
  qdivNat (qsum vals) vals.length

/-- Median of a list of rationals: the average of the two middle order
statistics (equal for odd length; `medianOf_eq`). -/
def medianOf (vals : List ℚ) : ℚ :=
  qdivNat (qadd ((sortAsc vals).getD ((vals.length - 1) / 2) 0)
    ((sortAsc vals).getD (vals.length / 2) 0)) 2

/-- Modelled from the spec: "computes the central tendency (mean or
median, declared per spec)". -/
def centerOf (mode : CenterMode) (vals : List ℚ) : ℚ :=
  match mode with
  | CenterMode.mean => meanOf vals
  | CenterMode.median => medianOf vals

/-- Walk a column from row index `i`, collecting the indices of rows whose
non-null value lies beyond a declared bound. -/
def outlierRowsFrom (lowB hiB : ℚ) : ℕ → List (Option ℚ) → List ℕ
  | _, [] => []
  | i, some x :: rest =>
    if x < lowB ∨ hiB < x then i :: outlierRowsFrom lowB hiB (i + 1) rest
    else outlierRowsFrom lowB hiB (i + 1) rest
  | i, none :: rest => outlierRowsFrom lowB hiB (i + 1) rest

/-- Modelled from the spec: the outlier rows are the "rows whose value
lies beyond the declared tail bound" — indices of rows whose non-null
value is below the declared lower bound or above the declared upper
bound. -/
def outlierRowsOf (col : List (Option ℚ)) (lowB hiB : ℚ) : List ℕ :=
  outlierRowsFrom lowB hiB 0 col

/-- Modelled from the spec: the body of `check` on a single column.
Structural errors are detected immediately, in the spec's order:
`MissingFieldError` when the bound spec names a field absent from the
table (before any computation on the data), `EmptyTableError` when there
are zero non-null values, `InvalidBoundsError` when lower bound > upper
bound.  Otherwise the observed tails and center are computed and compared
against the declared bounds, and statistical violations are recorded in
the result, never raised. -/
def checkCol (hasF : Bool) (col : List (Option ℚ)) (s : BoundSpec) :
    Except CheckError ValidationResult :=
  if hasF = false then Except.error CheckError.missingFieldError
  else if nonNull col = [] then Except.error CheckError.emptyTableError
  else if s.hiBound < s.lowBound then Except.error CheckError.invalidBoundsError
  else
    Except.ok
      { observedTailLow := quantileOf s.lowQ (nonNull col)
        observedTailHigh := quantileOf s.hiQ (nonNull col)
        observedCentral := centerOf s.centerMode (nonNull col)
        tailsPass := decide (s.lowBound ≤ quantileOf s.lowQ (nonNull col)
          ∧ quantileOf s.hiQ (nonNull col) ≤ s.hiBound)
        centerPass := decide (s.centerLow ≤ centerOf s.centerMode (nonNull col)
          ∧ centerOf s.centerMode (nonNull col) ≤ s.centerHigh)
        outlierRows := outlierRowsOf col s.lowBound s.hiBound }

/-- Modelled from the spec: `check(table, bound_spec) -> ValidationResult`,
a pure computation over the supplied snapshot. -/
def check (t : Table) (s : BoundSpec) : Except CheckError ValidationResult :=
  checkCol (hasField t s.field) (column t s.field) s

/-- Modelled from the spec: the Chart produced by `render` — "the empirical
distribution ... of the field's values, with the declared bounds drawn as
reference lines"; it carries no verdict. -/
structure Chart where
  values : List ℚ
  lowLine : ℚ
  hiLine : ℚ
deriving DecidableEq

/-- Modelled from the spec: `render(table, bound_spec) -> Chart`, a visual
overlay of the field's non-null values and the declared bounds, with no
validation logic beyond what `check` already defines. -/
def render (t : Table) (s : BoundSpec) : Chart :=
  { values := nonNull (column t s.field)
    lowLine := s.lowBound
    hiLine := s.hiBound }

/-- Modelled from the spec: `check` as a transformer of the table snapshot,
pairing its returned Validation Result with the table as it stands after
the call ("Side effects: none — pure computation over the supplied
snapshot": the call leaves the snapshot as it found it). -/
def checkSt (t : Table) (s : BoundSpec) :
    Except CheckError ValidationResult × Table :=
  (check t s, t)

/-- Modelled from the spec: `render` as a transformer of the table
snapshot, pairing its Chart with the table as it stands after the call. -/
def renderSt (t : Table) (s : BoundSpec) : Chart × Table :=
  (render t s, t)

/-- Modelled from the spec: one validation run over a list of per-field
bound specs; "each field's `check` is independent and failures/violations
are accumulated into a report". -/
def checkAll (t : Table) (specs : List BoundSpec) :
    List (String × Except CheckError ValidationResult) :=
  specs.map (fun s => (s.field, check t s))

/-- Setting field `f` of a row to a new (possibly null) value: the new
binding shadows any earlier binding of `f`. -/
def rowSet (f : String) (v : Option ℚ) (r : Row) : Row :=
  (f, v) :: r

/-- Setting field `f` of row `i` in a list of rows. -/
def updateRows (i : ℕ) (f : String) (v : Option ℚ) : List Row → List Row
  | [] => []
  | r :: rs =>
    match i with
    | 0 => rowSet f v r :: rs
    | Nat.succ j => r :: updateRows j f v rs

/-- A table with the value of field `f` in row `i` changed to `v`. -/
def updateCell (t : Table) (i : ℕ) (f : String) (v : Option ℚ) : Table :=
  { fields := t.fields, rows := updateRows i f v t.rows }

/-- A two-row, one-field table whose values sit inside the bounds of
`w1s`; instance data for the all-within-bounds scenario. -/
def w1t : Table :=
  { fields := ["a"]
    rows := [[("a", some (mkRat 1 1))], [("a", some (mkRat 2 1))]] }

/-- A bound spec for `w1t` whose tail bounds and center range contain all
of its data. -/
def w1s : BoundSpec :=
  { field := "a", lowQ := 0, hiQ := mkRat 1 1, lowBound := 0
    hiBound := mkRat 3 1, centerMode := CenterMode.mean, centerLow := 0
    centerHigh := mkRat 3 1 }

/-- A `capacity_ratio` row with value 0.8, inside the declared bounds. -/
def rC2a : Row := [("capacity_ratio", some (mkRat 4 5))]

/-- A `capacity_ratio` row with value 1.5, beyond the declared upper
bound. -/
def rC2b : Row := [("capacity_ratio", some (mkRat 3 2))]

/-- The spec's concrete scenario table: 100 rows of `capacity_ratio`, 95
of them with value 0.8 (in [0.8, 1.0]) and 5 with value 1.5 (in
[1.5, 2.0]). -/
def tC2 : Table :=
  { fields := ["capacity_ratio"]
    rows := List.replicate 95 rC2a ++ List.replicate 5 rC2b }

/-- The spec's concrete scenario bound spec: tail bounds [0.7, 1.1] at the
5%/95% quantile level, with a center range [0.7, 0.9] around the expected
mean of about 0.84. -/
def sC2 : BoundSpec :=
  { field := "capacity_ratio", lowQ := mkRat 1 20, hiQ := mkRat 19 20
    lowBound := mkRat 7 10, hiBound := mkRat 11 10
    centerMode := CenterMode.mean, centerLow := mkRat 7 10
    centerHigh := mkRat 9 10 }

/-- A one-row table carrying only field "a"; instance data for the
missing-field scenarios. -/
def t3 : Table :=
  { fields := ["a"], rows := [[("a", some (mkRat 1 1))]] }

/-- A bound spec naming the absent field "b" whose bounds are also
inverted (lower bound 1 > upper bound 0). -/
def s3 : BoundSpec :=
  { field := "b", lowQ := 0, hiQ := mkRat 1 1, lowBound := mkRat 1 1
    hiBound := 0, centerMode := CenterMode.mean, centerLow := 0
    centerHigh := 0 }

/-- A two-row table for field "a" holding the values 5 and 1. -/
def t4 : Table :=
  { fields := ["a"]
    rows := [[("a", some (mkRat 5 1))], [("a", some (mkRat 1 1))]] }

/-- A bound spec for `t4` with tail bounds [0, 2]: the value 5 violates
the upper bound. -/
def s4 : BoundSpec :=
  { field := "a", lowQ := 0, hiQ := mkRat 1 1, lowBound := 0
    hiBound := mkRat 2 1, centerMode := CenterMode.mean, centerLow := 0
    centerHigh := mkRat 10 1 }

/-- A row carrying value 1 in both fields "a" and "b". -/
def r21 : Row :=
  [("a", some (mkRat 1 1)), ("b", some (mkRat 1 1))]

/-- A 21-row table with fields "a" and "b", every value 1. -/
def t21 : Table :=
  { fields := ["a", "b"], rows := List.replicate 21 r21 }

/-- A bound spec for field "a" of `t21`: tail bounds [0, 2] observed at
the 0%/95% quantile levels. -/
def s21a : BoundSpec :=
  { field := "a", lowQ := 0, hiQ := mkRat 19 20, lowBound := 0
    hiBound := mkRat 2 1, centerMode := CenterMode.mean, centerLow := 0
    centerHigh := mkRat 100 1 }

end BoundsValidator
namespace SteamNotebook

/-- A pandas float-column value as the steam-plants notebook sees it: a
missing value, a finite rational, or one of the special values that
unguarded float arithmetic can produce. -/
inductive PVal where
  | null
  | num (q : ℚ)
  | posInf
  | negInf
  | nan
deriving DecidableEq

/-- Pointwise pandas float division `x / y` as the notebook's `assign`
lambdas use it: a missing operand propagates, a special operand follows
IEEE-754 rules, and a zero denominator yields a signed infinity (or NaN
for 0/0) — no guard, no raised error. -/
def pdDiv : PVal → PVal → PVal
  | PVal.null, _ => PVal.null
  | _, PVal.null => PVal.null
  | PVal.nan, _ => PVal.nan
  | _, PVal.nan => PVal.nan
  | PVal.num a, PVal.num b =>
    if b = 0 then
      (if a = 0 then PVal.nan else if 0 < a then PVal.posInf else PVal.negInf)
    else PVal.num (a / b)
  | PVal.num _, PVal.posInf => PVal.num 0
  | PVal.num _, PVal.negInf => PVal.num 0
  | PVal.posInf, PVal.num b => if 0 ≤ b then PVal.posInf else PVal.negInf
  | PVal.negInf, PVal.num b => if 0 ≤ b then PVal.negInf else PVal.posInf
  | PVal.posInf, _ => PVal.nan
  | PVal.negInf, _ => PVal.nan

/-- A row of the post-ETL `plants_steam_ferc1` table, restricted to the
columns the notebook's ratio derivation reads. -/
structure SteamRow where
  capacity_mw : PVal
  water_limited_capacity_mw : PVal
  not_water_limited_capacity_mw : PVal
  peak_demand_mw : PVal
  plant_capability_mw : PVal
deriving DecidableEq

/-- A row after the notebook's `assign`: the original columns together
with the four derived ratio columns. -/
structure SteamRowExt where
  base : SteamRow
  water_limited_ratio : PVal
  not_water_limited_ratio : PVal
  peak_demand_ratio : PVal
  capability_ratio : PVal
deriving DecidableEq

/-- Embedded from `validate_plants_steam_ferc1.ipynb`: the `assign` call
that derives `water_limited_ratio`, `not_water_limited_ratio`,
`peak_demand_ratio` and `capability_ratio` as pointwise quotients of the
respective capacity column by `capacity_mw`, with no guard on the
denominator. -/
def assignRatios (r : SteamRow) : SteamRowExt :=
  { base := r
    water_limited_ratio := pdDiv r.water_limited_capacity_mw r.capacity_mw
    not_water_limited_ratio := pdDiv r.not_water_limited_capacity_mw r.capacity_mw
    peak_demand_ratio := pdDiv r.peak_demand_mw r.capacity_mw
    capability_ratio := pdDiv r.plant_capability_mw r.capacity_mw }

/-- Embedded from the notebook: `plants_steam_ferc1` is the pulled table
with the four ratio columns assigned on every row. -/
def plants_steam_ferc1 (raw : List SteamRow) : List SteamRowExt :=
  raw.map assignRatios

end SteamNotebook
namespace VCERARE

/-- A dataframe's in-memory footprint as `memory_usage(deep=True)`
reports it: one deep byte count per column plus the index's byte
count. -/
structure DFrame where
  indexBytes : ℕ
  colBytes : List ℕ
deriving DecidableEq

/-- Embedded from VCERARE.ipynb:
`mem_usage_bytes = test_df.memory_usage(deep=True).sum()` — the summed
deep memory usage in bytes, index included. -/
def mem_usage_bytes (df : DFrame) : ℕ :=
  df.indexBytes + df.colBytes.sum

/-- Embedded from VCERARE.ipynb:
`mem_usage_mb = mem_usage_bytes / (1024 * 1024)`. -/
def mem_usage_mb (df : DFrame) : ℚ :=
  (mem_usage_bytes df : ℚ) / (1024 * 1024)

/-- Embedded from VCERARE.ipynb:
`csv_size_estimate_mb = mem_usage_mb * 2` — the "rough multiplier for CSV
size". -/
def csv_size_estimate_mb (df : DFrame) : ℚ :=
  mem_usage_mb df * 2

/-- The memory-check cell's observable output: it prints
`csv_size_estimate_mb` for every input dataframe; the cell has no branch
comparing the estimate against the 500 MB threshold its accompanying text
mentions. -/
def memoryCheckCellOutput (df : DFrame) : ℚ :=
  csv_size_estimate_mb df

/-- The claimed formula, written from the claim's words: twice the deep
in-memory size in MiB (the summed per-column and index deep byte counts
divided by 1024², then multiplied by 2). -/
def twiceDeepSizeMiB (df : DFrame) : ℚ :=
  2 * ((df.indexBytes + df.colBytes.sum : ℕ) : ℚ) / 2 ^ 20

/-- A code cell of the notebook, abstracted to its name environment: the
variable names it reads from the kernel's global environment (reads of
names the same cell assigns earlier are excluded) and the names it
assigns. -/
structure Cell where
  reads : List String
  defines : List String
deriving DecidableEq

/-- Transcribed from VCERARE.ipynb: the import cell. -/
def importsCell : Cell :=
  { reads := []
    defines := ["alt", "io", "plt", "os", "pd", "random", "sys", "pudl",
      "pudl_paths"] }

/-- Transcribed: the cell loading the RARE parquet table into
`rare_df`. -/
def loadCell : Cell :=
  { reads := ["pd", "pudl_paths"], defines := ["rare_df"] }

/-- Transcribed: the Rhode Island example filter cell. -/
def filterCell : Cell :=
  { reads := ["rare_df"], defines := ["filtered_df"] }

/-- Transcribed: the random `county_id_fips` generator cell. -/
def randomFipsCell : Cell :=
  { reads := ["random", "rare_df"], defines := ["random_county_id_fips"] }

/-- Transcribed: the histogram parameter cell — note it defines
`hist_gen_type`, not `gen_type`. -/
def histParamsCell : Cell :=
  { reads := ["random_county_id_fips"]
    defines := ["hist_year", "hist_county_id_fips", "hist_gen_type"] }

/-- Transcribed: the histogram cell; its plotting call and its title
f-string both read the undefined name `gen_type` while selecting the
capacity-factor column. -/
def histChartCell : Cell :=
  { reads := ["rare_df", "hist_year", "hist_county_id_fips", "plt",
      "gen_type", "hist_gen_type"]
    defines := ["plot_df", "county_name", "state_name"] }

/-- Transcribed: the CSV size estimator cell. -/
def memoryCheckCell : Cell :=
  { reads := ["plot_df", "print"]
    defines := ["test_df", "mem_usage_bytes", "mem_usage_mb",
      "csv_size_estimate_mb"] }

/-- Transcribed: the CSV download cell. -/
def downloadCell : Cell :=
  { reads := ["plot_df"], defines := ["download_df", "download_path"] }

/-- Transcribed: the state/year parameter cell of the explore section. -/
def exploreParamsCell : Cell :=
  { reads := [], defines := ["state", "annual_year"] }

/-- Transcribed: the annual aggregation cell building
`rare_year_state_subset_final`. -/
def annualAggCell : Cell :=
  { reads := ["rare_df", "annual_year", "state"]
    defines := ["cap_fac_cols", "rare_df_copy", "rare_year_state_subset_raw",
      "agg_funcs", "stats_df", "rare_year_state_subset_final"] }

/-- Transcribed: the annual Altair chart cell; its `vconcat` title
f-string reads the undefined name `year`. -/
def annualChartCell : Cell :=
  { reads := ["rare_year_state_subset_final", "alt", "state", "year"]
    defines := ["source", "color", "brush", "click", "points", "bars"] }

/-- Transcribed: the county/year parameter cell of the monthly section. -/
def monthlyParamsCell : Cell :=
  { reads := [], defines := ["county_id_fips", "monthly_year"] }

/-- Transcribed: the monthly resampling cell. -/
def monthlyAggCell : Cell :=
  { reads := ["rare_df_copy", "county_id_fips", "monthly_year",
      "cap_fac_cols"]
    defines := ["rare_county_year_subset", "rare_county_subset_monthly"] }

/-- Transcribed: the monthly Altair chart cell; its base chart reads the
undefined name `custom_colors` and its title reads the undefined name
`year`. -/
def monthlyChartCell : Cell :=
  { reads := ["rare_county_subset_monthly", "alt", "custom_colors", "list",
      "county_id_fips", "year"]
    defines := ["source", "base", "folded", "lines", "chart"] }

/-- The notebook's code cells, in top-to-bottom order. -/
def vcerareCells : List Cell :=
  [importsCell, loadCell, filterCell, randomFipsCell, histParamsCell,
    histChartCell, memoryCheckCell, downloadCell, exploreParamsCell,
    annualAggCell, annualChartCell, monthlyParamsCell, monthlyAggCell,
    monthlyChartCell]

/-- Python builtin names the cells use without defining them. -/
def pyBuiltins : List String := ["print", "list"]

/-- Every name assigned by any cell of the notebook. -/
def allDefines (cells : List Cell) : List String :=
  (cells.map Cell.defines).flatten

/-- Whether evaluating a cell in the given name environment raises a
`NameError`: it does exactly when the cell reads a name the environment
does not hold. -/
def cellRaisesNameError (env : List String) (c : Cell) : Bool :=
  c.reads.any (fun n => !(env.contains n))

end VCERARE
namespace BoundsValidator

theorem ratMulNat_eq (q : ℚ) (m : ℕ) : ratMulNat q m = q * m := by
  rw [ratMulNat, Rat.mkRat_eq_divInt, Rat.divInt_eq_div]
  push_cast
  rw [mul_comm (q.num : ℚ) (m : ℚ), mul_div_assoc, Rat.num_div_den, mul_comm]

theorem quantIdx_eq (q : ℚ) (m : ℕ) :
    quantIdx q m = min (Int.toNat ⌈q * (m : ℚ)⌉) m := by
  rw [quantIdx, ratMulNat_eq]

theorem quantIdx_le (q : ℚ) (m : ℕ) : quantIdx q m ≤ m :=
  Nat.min_le_right _ _

theorem qadd_eq (a b : ℚ) : qadd a b = a + b := by
  have ha : ((a.den : ℚ)) ≠ 0 := Nat.cast_ne_zero.mpr a.den_nz
  have hb : ((b.den : ℚ)) ≠ 0 := Nat.cast_ne_zero.mpr b.den_nz
  rw [qadd, Rat.mkRat_eq_divInt, Rat.divInt_eq_div]
  push_cast
  conv_rhs => rw [← Rat.num_div_den a, ← Rat.num_div_den b]
  field_simp

theorem qsum_eq (l : List ℚ) : qsum l = l.sum := by
  induction l with
  | nil => rfl
  | cons x xs ih =>
    rw [qsum, List.foldr_cons, qadd_eq, List.sum_cons]
    rw [qsum] at ih
    rw [ih]

theorem qdivNat_eq (a : ℚ) (n : ℕ) : qdivNat a n = a / n := by
  rcases Nat.eq_zero_or_pos n with h | h
  · subst h
    simp [qdivNat, Rat.mkRat_eq_divInt]
  · rw [qdivNat, Rat.mkRat_eq_divInt, Rat.divInt_eq_div]
    push_cast
    conv_rhs => rw [← Rat.num_div_den a]
    rw [div_div]

theorem meanOf_eq (vals : List ℚ) : meanOf vals = vals.sum / vals.length := by
  rw [meanOf, qdivNat_eq, qsum_eq]

theorem medianOf_eq (vals : List ℚ) :
    medianOf vals = ((sortAsc vals).getD ((vals.length - 1) / 2) 0
      + (sortAsc vals).getD (vals.length / 2) 0) / 2 := by
  rw [medianOf, qdivNat_eq, qadd_eq]
  norm_num

theorem length_sortAsc (vals : List ℚ) : (sortAsc vals).length = vals.length :=
  (List.perm_insertionSort _ _).length_eq

theorem mem_sortAsc (vals : List ℚ) (x : ℚ) : x ∈ sortAsc vals ↔ x ∈ vals :=
  (List.perm_insertionSort _ _).mem_iff

theorem quantileOf_mem (q : ℚ) (vals : List ℚ) (h : vals ≠ []) :
    quantileOf q vals ∈ vals := by
  have hlen : 0 < vals.length := List.length_pos.mpr h
  have hidx : quantIdx q (vals.length - 1) < (sortAsc vals).length := by
    rw [length_sortAsc]
    exact lt_of_le_of_lt (quantIdx_le _ _) (Nat.sub_lt hlen one_pos)
  rw [quantileOf, List.getD_eq_getElem _ _ hidx]
  exact (mem_sortAsc _ _).mp (List.getElem_mem _)

theorem mem_nonNull (col : List (Option ℚ)) (x : ℚ) :
    x ∈ nonNull col ↔ some x ∈ col := by
  rw [nonNull, List.mem_filterMap]
  constructor
  · rintro ⟨o, ho, rfl⟩
    exact ho
  · intro h
    exact ⟨some x, h, rfl⟩

theorem outlierRowsFrom_nil_of_inBounds (lowB hiB : ℚ) (i : ℕ)
    (col : List (Option ℚ))
    (h : ∀ x : ℚ, some x ∈ col → lowB ≤ x ∧ x ≤ hiB) :
    outlierRowsFrom lowB hiB i col = [] := by
  induction col generalizing i with
  | nil => rfl
  | cons o rest ih =>
    cases o with
    | none =>
      exact ih (i + 1) (fun x hx => h x (List.mem_cons_of_mem _ hx))
    | some x =>
      have hx := h x (List.mem_cons_self _ _)
      rw [outlierRowsFrom, if_neg]
      · exact ih (i + 1) (fun y hy => h y (List.mem_cons_of_mem _ hy))
      · push_neg
        exact ⟨hx.1, hx.2⟩

theorem mem_outlierRowsFrom (lowB hiB : ℚ) (col : List (Option ℚ))
    (i k : ℕ) (x : ℚ) (hk : col.get? k = some (some x))
    (hout : x < lowB ∨ hiB < x) :
    i + k ∈ outlierRowsFrom lowB hiB i col := by
  induction col generalizing i k with
  | nil => simp at hk
  | cons o rest ih =>
    cases k with
    | zero =>
      simp only [List.get?] at hk
      cases hk
      rw [outlierRowsFrom, if_pos hout]
      simp
    | succ j =>
      simp only [List.get?] at hk
      have hmem : (i + 1) + j ∈ outlierRowsFrom lowB hiB (i + 1) rest :=
        ih (i + 1) j hk
      have harith : i + (j + 1) = (i + 1) + j := by omega
      rw [harith]
      cases o with
      | none => exact hmem
      | some y =>
        rw [outlierRowsFrom]
        by_cases hy : y < lowB ∨ hiB < y
        · rw [if_pos hy]
          exact List.mem_cons_of_mem _ hmem
        · rw [if_neg hy]
          exact hmem

theorem rowVal_rowSet_self (f : String) (v : Option ℚ) (r : Row) :
    rowVal f (rowSet f v r) = v := by
  simp [rowVal, rowSet, List.lookup]

theorem rowVal_rowSet_ne (g f : String) (v : Option ℚ) (r : Row)
    (hgf : g ≠ f) : rowVal g (rowSet f v r) = rowVal g r := by
  have hb : (g == f) = false := beq_eq_false_iff_ne.mpr hgf
  simp [rowVal, rowSet, List.lookup, hb]

theorem map_rowVal_updateRows (g f : String) (v : Option ℚ)
    (hgf : g ≠ f) (rs : List Row) (i : ℕ) :
    (updateRows i f v rs).map (rowVal g) = rs.map (rowVal g) := by
  induction rs generalizing i with
  | nil => simp [updateRows]
  | cons r rest ih =>
    cases i with
    | zero =>
      simp only [updateRows, List.map_cons]
      rw [rowVal_rowSet_ne g f v r hgf]
    | succ j =>
      simp only [updateRows, List.map_cons, ih]

theorem column_updateCell_ne (t : Table) (i : ℕ) (f g : String)
    (v : Option ℚ) (hgf : g ≠ f) :
    column (updateCell t i f v) g = column t g := by
  rw [column, column, updateCell]
  exact map_rowVal_updateRows g f v hgf t.rows i

theorem get?_updateRows (f : String) (v : Option ℚ) (rs : List Row)
    (i : ℕ) (hi : i < rs.length) :
    ∃ r, (updateRows i f v rs).get? i = some (rowSet f v r) := by
  induction rs generalizing i with
  | nil => simp at hi
  | cons r rest ih =>
    cases i with
    | zero => exact ⟨r, rfl⟩
    | succ j =>
      obtain ⟨r', hr'⟩ := ih j (Nat.succ_lt_succ_iff.mp hi)
      exact ⟨r', by simpa [updateRows] using hr'⟩

theorem get?_column_updateCell_self (t : Table) (i : ℕ) (f : String)
    (v : Option ℚ) (hi : i < t.rows.length) :
    (column (updateCell t i f v) f).get? i = some v := by
  rw [column, updateCell]
  obtain ⟨r, hr⟩ := get?_updateRows f v t.rows i hi
  rw [List.get?_map, hr]
  simp [rowVal_rowSet_self]

theorem le_quantileOf_one (vals : List ℚ) (x : ℚ) (hx : x ∈ vals) :
    x ≤ quantileOf 1 vals := by
  have hne : vals ≠ [] := fun h => by simp [h] at hx
  have hlen : 0 < vals.length := List.length_pos.mpr hne
  have hslen : (sortAsc vals).length = vals.length := length_sortAsc vals
  have hidx : quantIdx 1 (vals.length - 1) = vals.length - 1 := by
    rw [quantIdx_eq, one_mul, Int.ceil_natCast, Int.toNat_natCast, min_self]
  have hlt : vals.length - 1 < (sortAsc vals).length := by
    rw [hslen]
    exact Nat.sub_lt hlen one_pos
  rw [quantileOf, hidx, List.getD_eq_getElem _ _ hlt]
  obtain ⟨k, hk, hkx⟩ := List.getElem_of_mem ((mem_sortAsc vals x).mpr hx)
  rw [← hkx]
  have hsort : List.Sorted (· ≤ ·) (sortAsc vals) :=
    List.sorted_insertionSort _ _
  rcases Nat.lt_or_ge k (vals.length - 1) with hklt | hkge
  · have h := List.pairwise_iff_get.mp hsort ⟨k, hk⟩
      ⟨vals.length - 1, hlt⟩ (Fin.mk_lt_mk.mpr hklt)
    simpa using h
  · have hke : k = vals.length - 1 := by
      have : k < vals.length := by rw [← hslen]; exact hk
      omega
    simp [hke]

/-- C1: for every table and bound spec meeting check's preconditions
(field present, at least one non-null value, lower bound ≤ upper bound),
if every non-null value of the named field lies within the declared
[lower, upper] tail bounds and the computed central tendency (mean or
median, as declared) lies within the declared center range, then `check`
returns a Validation Result whose tail flag and center flag are both pass
and whose outlier set is empty. -/
theorem check_pass_of_all_in_bounds (t : Table) (s : BoundSpec)
    (hf : hasField t s.field = true)
    (hne : nonNull (column t s.field) ≠ [])
    (hb : s.lowBound ≤ s.hiBound)
    (hin : ∀ x ∈ nonNull (column t s.field), s.lowBound ≤ x ∧ x ≤ s.hiBound)
    (hcl : s.centerLow ≤ centerOf s.centerMode (nonNull (column t s.field)))
    (hch : centerOf s.centerMode (nonNull (column t s.field)) ≤ s.centerHigh) :
    check t s = Except.ok
      { observedTailLow := quantileOf s.lowQ (nonNull (column t s.field))
        observedTailHigh := quantileOf s.hiQ (nonNull (column t s.field))
        observedCentral := centerOf s.centerMode (nonNull (column t s.field))
        tailsPass := true
        centerPass := true
        outlierRows := [] } := by
  have hlow := quantileOf_mem s.lowQ _ hne
  have hhi := quantileOf_mem s.hiQ _ hne
  rw [check, checkCol, if_neg (by simp [hf]),
    if_neg hne, if_neg (not_lt.mpr hb)]
  congr 1
  have htails : decide (s.lowBound ≤ quantileOf s.lowQ (nonNull (column t s.field))
      ∧ quantileOf s.hiQ (nonNull (column t s.field)) ≤ s.hiBound) = true :=
    decide_eq_true ⟨(hin _ hlow).1, (hin _ hhi).2⟩
  have hcenter : decide (s.centerLow ≤ centerOf s.centerMode (nonNull (column t s.field))
      ∧ centerOf s.centerMode (nonNull (column t s.field)) ≤ s.centerHigh) = true :=
    decide_eq_true ⟨hcl, hch⟩
  have houtl : outlierRowsOf (column t s.field) s.lowBound s.hiBound = [] :=
    outlierRowsFrom_nil_of_inBounds _ _ _ _
      (fun x hx => hin x ((mem_nonNull _ _).mpr hx))
  rw [htails, hcenter, houtl]

/-- Witness for C1: on the concrete table `w1t` (values 1 and 2) and
bound spec `w1s` (tail bounds [0, 3], center range [0, 3]), every
hypothesis holds and `check` passes both checks with no outliers. -/
theorem check_pass_of_all_in_bounds_witness :
    check w1t w1s = Except.ok
      { observedTailLow := quantileOf w1s.lowQ (nonNull (column w1t w1s.field))
        observedTailHigh := quantileOf w1s.hiQ (nonNull (column w1t w1s.field))
        observedCentral := centerOf w1s.centerMode (nonNull (column w1t w1s.field))
        tailsPass := true
        centerPass := true
        outlierRows := [] } :=
  check_pass_of_all_in_bounds w1t w1s (by decide) (by decide) (by decide)
    (by decide) (by decide) (by decide)

set_option maxRecDepth 40000 in
/-- C2: on the spec's concrete scenario — 100 `capacity_ratio` rows, 95
with value 0.8 in [0.8, 1.0] and 5 with value 1.5 in [1.5, 2.0], tail
bounds [0.7, 1.1] at the 5%/95% quantile level — `check` reports the
tail check failed (the observed 95% quantile, 1.5, exceeds the declared
1.1 while the observed 5% quantile, 0.8, respects the declared 0.7), the
center check passed (the mean, 0.835 ≈ 0.84, lies in the declared center
range), and exactly the 5 high rows (indices 95–99) as outliers. -/
theorem check_capacity_ratio_scenario :
    check tC2 sC2 = Except.ok
      { observedTailLow := mkRat 4 5
        observedTailHigh := mkRat 3 2
        observedCentral := mkRat 167 200
        tailsPass := false
        centerPass := true
        outlierRows := [95, 96, 97, 98, 99] }
    ∧ sC2.lowBound ≤ mkRat 4 5 ∧ sC2.hiBound < mkRat 3 2
    ∧ sC2.centerLow ≤ mkRat 167 200 ∧ mkRat 167 200 ≤ sC2.centerHigh := by
  decide

/-- Counterexample to C3 as stated: on the table `t3` (which lacks field
"b") and spec `s3` (which names "b" and also has lower bound 1 > upper
bound 0), `check` fails with `MissingFieldError`, not
`InvalidBoundsError`, although lower bound > upper bound holds — so
"fails with InvalidBoundsError exactly when lower bound > upper bound" is
false: the three conditions overlap and the errors are checked in
precedence order. -/
theorem check_error_kinds_counterexample :
    s3.hiBound < s3.lowBound
    ∧ check t3 s3 ≠ Except.error CheckError.invalidBoundsError
    ∧ check t3 s3 = Except.error CheckError.missingFieldError := by
  decide

/-- C3 (amended): `check` returns an error iff one of the three
structural conditions holds, and the error kinds follow the precedence
missing field, then empty data, then invalid bounds: `MissingFieldError`
exactly when the named field is absent (nothing else is computed — an
error return carries no partial Validation Result); `EmptyTableError`
exactly when the field is present but has zero non-null values;
`InvalidBoundsError` exactly when the field is present with a non-null
value and lower bound > upper bound. -/
theorem check_error_conditions (t : Table) (s : BoundSpec) :
    ((∃ e, check t s = Except.error e) ↔
      (hasField t s.field = false ∨ nonNull (column t s.field) = []
        ∨ s.hiBound < s.lowBound))
    ∧ (check t s = Except.error CheckError.missingFieldError ↔
        hasField t s.field = false)
    ∧ (check t s = Except.error CheckError.emptyTableError ↔
        (hasField t s.field = true ∧ nonNull (column t s.field) = []))
    ∧ (check t s = Except.error CheckError.invalidBoundsError ↔
        (hasField t s.field = true ∧ nonNull (column t s.field) ≠ []
          ∧ s.hiBound < s.lowBound)) := by
  simp only [check, checkCol]
  by_cases h1 : hasField t s.field = false
  · simp [h1]
  · by_cases h2 : nonNull (column t s.field) = []
    · simp [h1, h2]
    · by_cases h3 : s.hiBound < s.lowBound
      · simp [h1, h2, h3]
      · simp [h1, h2, h3]

/-- C4: under the structural preconditions (field present, at least one
non-null value, lower bound ≤ upper bound), `check` never returns an
error, however many values violate the bounds: it returns a Validation
Result, and every row whose non-null value lies outside the declared
bounds is recorded in that result's outlier rows rather than raised as a
fault. -/
theorem check_ok_of_preconditions (t : Table) (s : BoundSpec)
    (hf : hasField t s.field = true)
    (hne : nonNull (column t s.field) ≠ [])
    (hb : s.lowBound ≤ s.hiBound) :
    ∃ r, check t s = Except.ok r
      ∧ ∀ i x, (column t s.field).get? i = some (some x) →
          (x < s.lowBound ∨ s.hiBound < x) → i ∈ r.outlierRows := by
  refine ⟨⟨quantileOf s.lowQ (nonNull (column t s.field)),
    quantileOf s.hiQ (nonNull (column t s.field)),
    centerOf s.centerMode (nonNull (column t s.field)),
    decide (s.lowBound ≤ quantileOf s.lowQ (nonNull (column t s.field))
      ∧ quantileOf s.hiQ (nonNull (column t s.field)) ≤ s.hiBound),
    decide (s.centerLow ≤ centerOf s.centerMode (nonNull (column t s.field))
      ∧ centerOf s.centerMode (nonNull (column t s.field)) ≤ s.centerHigh),
    outlierRowsOf (column t s.field) s.lowBound s.hiBound⟩, ?_, ?_⟩
  · rw [check, checkCol, if_neg (by simp [hf]), if_neg hne,
      if_neg (not_lt.mpr hb)]
  · intro i x hget hout
    have h := mem_outlierRowsFrom s.lowBound s.hiBound _ 0 i x hget hout
    simpa [outlierRowsOf] using h

/-- Witness for C4: on the concrete table `t4` (values 5 and 1) and spec
`s4` (tail bounds [0, 2]), the preconditions hold, `check` succeeds, and
the violating row 0 (value 5 > 2) is reported among the outlier rows. -/
theorem check_ok_of_preconditions_witness :
    ∃ r, check t4 s4 = Except.ok r
      ∧ ∀ i x, (column t4 s4.field).get? i = some (some x) →
          (x < s4.lowBound ∨ s4.hiBound < x) → i ∈ r.outlierRows :=
  check_ok_of_preconditions t4 s4 (by decide) (by decide) (by decide)

/-- C5: `check` is a pure, deterministic function of the table snapshot
and the bound spec: recomputing on the snapshot a previous call returned
yields the identical result, and any table holding the same fields and
rows yields the identical result. -/
theorem check_deterministic (t : Table) (s : BoundSpec) :
    check t s = check t s
    ∧ (checkSt ((checkSt t s).2) s).1 = (checkSt t s).1
    ∧ ∀ t' : Table, t'.fields = t.fields → t'.rows = t.rows →
        check t' s = check t s := by
  refine ⟨rfl, rfl, ?_⟩
  intro t' hfld hrows
  have ht : t' = t := by
    cases t'
    cases t
    simp only at hfld hrows
    rw [hfld, hrows]
  rw [ht]

set_option maxRecDepth 40000 in
/-- Counterexample to C6 as stated: on the 21-row table `t21` (every
value 1), changing row 20 of field "a" to the value 100 — far above the
declared upper bound 2 of `s21a` — puts row 20 in the outlier set, yet
the tail check still reports pass, because the observed 95% quantile of
21 values is the 20th order statistic (still 1), not the moved maximum.
So "that field's tail check reports fail" does not hold for every such
change. -/
theorem independence_tail_counterexample :
    check (updateCell t21 20 "a" (some (mkRat 100 1))) s21a = Except.ok
      { observedTailLow := mkRat 1 1
        observedTailHigh := mkRat 1 1
        observedCentral := mkRat 40 7
        tailsPass := true
        centerPass := true
        outlierRows := [20] }
    ∧ s21a.hiBound < mkRat 100 1 := by
  decide

/-- C6 (amended): per-field results are independent. Changing the value
of one field never alters another field's `check` result; changing row
`i` of field `f` to a value above that field's declared upper bound puts
row `i` in that field's outlier set, and the tail check moreover reports
fail whenever the declared upper quantile level is 1 (the maximum) — with
an intermediate level such as 0.95 over enough rows the observed quantile
can stay within bounds, so the flag may remain pass; and a multi-spec run
evaluates every spec, a failure in one field never aborting the rest. -/
theorem check_per_field_independence (t : Table) (i : ℕ) (f : String)
    (v : ℚ) (s : BoundSpec) :
    (s.field ≠ f → check (updateCell t i f (some v)) s = check t s)
    ∧ (s.field = f → hasField t f = true → i < t.rows.length →
        s.lowBound ≤ s.hiBound → s.hiBound < v →
        ∃ r, check (updateCell t i f (some v)) s = Except.ok r
          ∧ i ∈ r.outlierRows
          ∧ (s.hiQ = 1 → r.tailsPass = false))
    ∧ ∀ specs1 specs2 : List BoundSpec,
        checkAll t (specs1 ++ s :: specs2)
          = checkAll t specs1 ++ (s.field, check t s) :: checkAll t specs2 := by
  refine ⟨?_, ?_, ?_⟩
  · intro hne
    rw [check, check, column_updateCell_ne t i f s.field (some v) hne]
    rfl
  · intro hsf hhf hi hb hv
    subst hsf
    set t' := updateCell t i s.field (some v) with ht'
    have hget : (column t' s.field).get? i = some (some v) :=
      get?_column_updateCell_self t i s.field (some v) hi
    have hvcol : some v ∈ column t' s.field := List.get?_mem hget
    have hvmem : v ∈ nonNull (column t' s.field) :=
      (mem_nonNull _ _).mpr hvcol
    have hne : nonNull (column t' s.field) ≠ [] := by
      intro h
      rw [h] at hvmem
      exact absurd hvmem (List.not_mem_nil v)
    have hhf' : hasField t' s.field = true := hhf
    refine ⟨⟨quantileOf s.lowQ (nonNull (column t' s.field)),
      quantileOf s.hiQ (nonNull (column t' s.field)),
      centerOf s.centerMode (nonNull (column t' s.field)),
      decide (s.lowBound ≤ quantileOf s.lowQ (nonNull (column t' s.field))
        ∧ quantileOf s.hiQ (nonNull (column t' s.field)) ≤ s.hiBound),
      decide (s.centerLow ≤ centerOf s.centerMode (nonNull (column t' s.field))
        ∧ centerOf s.centerMode (nonNull (column t' s.field)) ≤ s.centerHigh),
      outlierRowsOf (column t' s.field) s.lowBound s.hiBound⟩, ?_, ?_, ?_⟩
    · rw [check, checkCol, if_neg (by simp [hhf']), if_neg hne,
        if_neg (not_lt.mpr hb)]
    · have h := mem_outlierRowsFrom s.lowBound s.hiBound _ 0 i v hget
        (Or.inr hv)
      simpa [outlierRowsOf] using h
    · intro hq1
      rw [hq1]
      refine decide_eq_false ?_
      rintro ⟨-, hhi⟩
      exact absurd
        (lt_of_lt_of_le hv (le_trans (le_quantileOf_one _ v hvmem) hhi))
        (lt_irrefl _)
  · intro specs1 specs2
    simp [checkAll]

/-- C7: neither `check` nor `render` mutates the observation table: as
state transformers of the snapshot both return the table exactly as it
was, and their only products are the returned Validation Result and
Chart respectively. -/
theorem check_render_no_mutation (t : Table) (s : BoundSpec) :
    (checkSt t s).2 = t ∧ (renderSt t s).2 = t
    ∧ (checkSt t s).1 = check t s ∧ (renderSt t s).1 = render t s :=
  ⟨rfl, rfl, rfl, rfl⟩

end BoundsValidator

namespace SteamNotebook

/-- C8: the derived ratio columns are the unguarded pointwise quotient of
the respective capacity column by `capacity_mw`: the derivation is total
over every input table (no row raises an error), each ratio equals the
unguarded division of its numerator column by `capacity_mw`, a
zero-denominator row with a positive numerator yields the float infinity
the unguarded division produces (not a chosen null or error), and a null
denominator propagates to a null ratio. -/
theorem ratio_columns_unguarded (raw : List SteamRow) (r : SteamRow)
    (a : ℚ) :
    (plants_steam_ferc1 raw).length = raw.length
    ∧ (assignRatios r).water_limited_ratio
        = pdDiv r.water_limited_capacity_mw r.capacity_mw
    ∧ (assignRatios r).not_water_limited_ratio
        = pdDiv r.not_water_limited_capacity_mw r.capacity_mw
    ∧ (assignRatios r).peak_demand_ratio
        = pdDiv r.peak_demand_mw r.capacity_mw
    ∧ (assignRatios r).capability_ratio
        = pdDiv r.plant_capability_mw r.capacity_mw
    ∧ (r.capacity_mw = PVal.num 0 → r.water_limited_capacity_mw = PVal.num a →
        0 < a → (assignRatios r).water_limited_ratio = PVal.posInf)
    ∧ (r.capacity_mw = PVal.null →
        (assignRatios r).water_limited_ratio = PVal.null
        ∧ (assignRatios r).capability_ratio = PVal.null) := by
  refine ⟨List.length_map _ _, rfl, rfl, rfl, rfl, ?_, ?_⟩
  · intro hc hw ha
    simp [assignRatios, pdDiv, hc, hw, ha, ha.ne']
  · intro hc
    cases hx : r.water_limited_capacity_mw <;>
      cases hy : r.plant_capability_mw <;>
        simp [assignRatios, pdDiv, hc, hx, hy]

end SteamNotebook

namespace VCERARE

/-- C9: the notebook's CSV size estimator is exactly the deterministic
function mapping a dataframe to twice its deep in-memory size in MiB
(summed per-column and index deep byte counts, divided by 1024², times
2), for every input dataframe; and the 500 MB threshold the surrounding
text mentions is not enforced — the cell computes and prints the same
estimate even when it exceeds 500, as the large-dataframe instance
shows. -/
theorem csv_size_estimator_exact (df : DFrame) :
    memoryCheckCellOutput df = twiceDeepSizeMiB df
    ∧ ∃ big : DFrame, 500 < memoryCheckCellOutput big := by
  constructor
  · rw [memoryCheckCellOutput, csv_size_estimate_mb, mem_usage_mb,
      mem_usage_bytes, twiceDeepSizeMiB]
    push_cast
    ring_nf
  · refine ⟨⟨2 ^ 30, []⟩, ?_⟩
    rw [memoryCheckCellOutput, csv_size_estimate_mb, mem_usage_mb,
      mem_usage_bytes]
    norm_num

theorem cellRaisesNameError_of_not_mem (env : List String) (c : Cell)
    (n : String) (hn : n ∈ c.reads) (hne : n ∉ env) :
    cellRaisesNameError env c = true := by
  rw [cellRaisesNameError, List.any_eq_true]
  refine ⟨n, hn, ?_⟩
  simp [hne]

/-- C10: the charting cells are not closed under the notebook's own
definitions: no cell assigns `gen_type` (only `hist_gen_type` is
assigned), `year` or `custom_colors`, while the histogram cell reads
`gen_type` and the two Altair chart cells read `year` and
`custom_colors`; hence in every name environment a top-to-bottom
execution from a fresh kernel can build (any subset of the builtins and
the names some cell assigns), each of the three cells raises a NameError
before producing its chart. -/
theorem chart_cells_name_errors :
    "gen_type" ∉ allDefines vcerareCells
    ∧ "year" ∉ allDefines vcerareCells
    ∧ "custom_colors" ∉ allDefines vcerareCells
    ∧ "hist_gen_type" ∈ allDefines vcerareCells
    ∧ "gen_type" ∈ histChartCell.reads
    ∧ "year" ∈ annualChartCell.reads
    ∧ "custom_colors" ∈ monthlyChartCell.reads
    ∧ vcerareCells.get? 5 = some histChartCell
    ∧ vcerareCells.get? 10 = some annualChartCell
    ∧ vcerareCells.get? 13 = some monthlyChartCell
    ∧ (∀ env : List String,
        (∀ n ∈ env, n ∈ pyBuiltins ++ allDefines vcerareCells) →
        cellRaisesNameError env histChartCell = true
        ∧ cellRaisesNameError env annualChartCell = true
        ∧ cellRaisesNameError env monthlyChartCell = true) := by
  refine ⟨by decide, by decide, by decide, by decide, by decide, by decide,
    by decide, by decide, by decide, by decide, ?_⟩
  intro env henv
  have hg : "gen_type" ∉ env := fun h => absurd (henv _ h) (by decide)
  have hy : "year" ∉ env := fun h => absurd (henv _ h) (by decide)
  have hc : "custom_colors" ∉ env := fun h => absurd (henv _ h) (by decide)
  exact ⟨cellRaisesNameError_of_not_mem env _ _ (by decide) hg,
    cellRaisesNameError_of_not_mem env _ _ (by decide) hy,
    cellRaisesNameError_of_not_mem env _ _ (by decide) hc⟩

end VCERARE
